import Mathlib

/-!
Shallow embedding of the ".NET Generator" web application (TypeScript/Angular
sources) for specification checking.

Modelling conventions:
- A JS object used as a string-keyed dictionary (`{ [key: string]: string }`)
  is modelled as an association list `List (String × String)` in key insertion
  order, which matches JS enumeration order for non-numeric string keys
  (file paths). Assigning to an existing key keeps its position and replaces
  the value; assigning a fresh key appends it.
- JS string truthiness (`if (s)`) is modelled as `s ≠ ""`, and `x || null`
  on a possibly-empty string as mapping `""` (and `undefined`) to `none`.
- The external generative-AI call and JSON parsing are an opaque boundary:
  each operation takes the boundary outcome as an explicit
  `Except String RawResponse` argument (the parsed response on success, the
  thrown message on failure), plus the freshly generated id as a `String`
  argument (the source derives it from the clock and randomness).
- Angular signals become fields of an explicit state record; a handler is a
  function from state (plus boundary outcomes) to state. Handlers also
  return a `Bool` recording whether the Generation Client boundary was
  actually invoked during the call.
- The timed portion of the cosmetic agent-log simulation (appends scheduled
  behind `setTimeout` delays) is outside the model; only its synchronous
  prefix (the writes before the first `await delay`) is modelled.
-/

namespace DotNetGen

/-- Framework catalog entry (`models/project.model.ts`). -/
structure Framework where
  value : String
  label : String
  description : String
deriving Repr, DecidableEq

/-- Feature catalog entry (`models/project.model.ts`); the category union type
is kept as a plain string since only its values are ever compared. -/
structure Feature where
  id : String
  label : String
  category : String
deriving Repr, DecidableEq

/-- Agent catalog entry (`models/project.model.ts`), display-only. -/
structure Agent where
  id : String
  name : String
  role : String
  gradient : String
deriving Repr, DecidableEq

/-- GeneratedProject (`models/project.model.ts`, newer revision with metadata
fields). `files` is the JS path→content dictionary, modelled as an
association list in insertion order. -/
structure GeneratedProject where
  id : String
  name : String
  prompt : String
  framework : Framework
  files : List (String × String)
  dependencies : List String
  explanation : String
  build_commands : List String
deriving Repr, DecidableEq

/-- One entry of the `files` array of the AI response
(`gemini.service.ts`, response schema). -/
structure RawFile where
  path : String
  content : String
deriving Repr, DecidableEq

/-- Parsed JSON response of the generative model (`gemini.service.ts`,
the `rawResponse` shape). -/
structure RawResponse where
  files : List RawFile
  dependencies : List String
  explanation : String
  build_commands : List String
deriving Repr, DecidableEq

/-- JS `String.prototype.trim()`: strip leading and trailing whitespace.
Written over the character list so that it evaluates inside the kernel. -/
def jsTrim (s : String) : String :=
  String.mk (((s.data.dropWhile Char.isWhitespace).reverse.dropWhile Char.isWhitespace).reverse)

/-- JS `String.prototype.endsWith(suffix)`, written over the character list
so that it evaluates inside the kernel. -/
def jsEndsWith (s suffix : String) : Bool :=
  suffix.data.isSuffixOf s.data

/-- JS object assignment `dict[k] = v` on an insertion-ordered string
dictionary: replace the value of the first occurrence of `k` in place,
else append `(k, v)`. -/
def assocSet : List (String × String) → String → String → List (String × String)
  | [], k, v => [(k, v)]
  | (k', v') :: rest, k, v =>
    if k' = k then (k, v) :: rest else (k', v') :: assocSet rest k v

/-- Lookup `dict[k]` on the association-list dictionary model. -/
def assocFind (m : List (String × String)) (k : String) : Option String :=
  (m.find? (fun kv => kv.1 = k)).map (fun kv => kv.2)

namespace GeminiService

/-- Transformation of the response file array into the dictionary the app
expects (`gemini.service.ts`, `callGenerativeModel`): the reduce keeps an
entry only when `file.path && file.content` is truthy, i.e. both strings are
non-empty, and assigns `acc[file.path] = file.content`. -/
def filesDictionary (files : List RawFile) : List (String × String) :=
  files.foldl
    (fun acc file =>
      if file.path ≠ "" ∧ file.content ≠ "" then assocSet acc file.path file.content
      else acc)
    []

/-- Project name derivation (`gemini.service.ts`, `callGenerativeModel`):
`originalPrompt.length > 50 ? originalPrompt.substring(0, 47) + '...' :
originalPrompt`. -/
def projectName (originalPrompt : String) : String :=
  if originalPrompt.length > 50 then (originalPrompt.take 47) ++ "..." else originalPrompt

/-- Pure core of `callGenerativeModel` (`gemini.service.ts`): given the
boundary outcome `resp`, the fresh id, the original prompt and the framework,
build the `GeneratedProject` and fail when the file dictionary is empty. -/
def callGenerativeModel (resp : Except String RawResponse) (newId : String)
    (originalPrompt : String) (framework : Framework) : Except String GeneratedProject :=
  match resp with
  | .error e => .error e
  | .ok rawResponse =>
    let filesDict := filesDictionary rawResponse.files
    let generatedProject : GeneratedProject :=
      { id := newId
        name := projectName originalPrompt
        prompt := originalPrompt
        framework := framework
        files := filesDict
        dependencies := rawResponse.dependencies
        explanation := rawResponse.explanation
        build_commands := rawResponse.build_commands }
    if generatedProject.files.length = 0 then
      .error "AI response is missing valid file structure."
    else
      .ok generatedProject

/-- Error-normalising wrapper `generateProject` (`gemini.service.ts`): any
failure of the underlying call is replaced by a fixed user-facing message. -/
def generateProject (resp : Except String RawResponse) (newId : String)
    (prompt : String) (framework : Framework) : Except String GeneratedProject :=
  match callGenerativeModel resp newId prompt framework with
  | .ok project => .ok project
  | .error _ =>
    .error "Failed to generate project. The AI model may be overloaded or the request was invalid. Please check your prompt and try again."

/-- Modification operation `modifyProject` (`gemini.service.ts`): on success
the existing project is kept and only `files`, `dependencies`, `explanation`
and `build_commands` are replaced from the freshly parsed response; any
failure is normalised to a fixed message. -/
def modifyProject (resp : Except String RawResponse) (newId : String)
    (existingProject : GeneratedProject) : Except String GeneratedProject :=
  match callGenerativeModel resp newId existingProject.prompt existingProject.framework with
  | .ok modifiedCore =>
    .ok { existingProject with
          files := modifiedCore.files
          dependencies := modifiedCore.dependencies
          explanation := modifiedCore.explanation
          build_commands := modifiedCore.build_commands }
  | .error _ =>
    .error "Failed to modify project. The AI model may be overloaded or the request was invalid."

end GeminiService

namespace ProjectHistoryService

/-- Upsert by id (`project-history.service.ts`, `saveProject`): `findIndex`
locates the first entry with the same id; a hit is replaced in place,
otherwise the project is `unshift`ed to the front. The parsed stored list is
passed explicitly (the localStorage round trip is the opaque boundary). -/
def saveProject (projects : List GeneratedProject) (project : GeneratedProject) :
    List GeneratedProject :=
  match projects.findIdx? (fun p => p.id = project.id) with
  | some existingIndex => projects.set existingIndex project
  | none => project :: projects

/-- Deletion by id (`project-history.service.ts`, `deleteProject`):
`projects.filter(p => p.id !== id)`. -/
def deleteProject (projects : List GeneratedProject) (id : String) :
    List GeneratedProject :=
  projects.filter (fun p => p.id ≠ id)

end ProjectHistoryService

inductive AppState where
  | landing
  | configuring
  | generating
  | completed
  | my_projects
  | error
deriving Repr, DecidableEq

inductive WorkspaceTab where
  | assistant
  | preview
  | info
deriving Repr, DecidableEq

inductive ChatRole where
  | user
  | assistant
deriving Repr, DecidableEq

/-- Chat transcript entry (`app.component.ts`, `chatHistory` signal). -/
structure ChatMessage where
  role : ChatRole
  content : String
deriving Repr, DecidableEq

namespace AppComponent

/-- Agent catalog (`app.component.ts`, `AI_AGENTS`). -/
def AI_AGENTS : List Agent :=
  [ { id := "team_leader", name := "Team Leader", role := "Project Manager",
      gradient := "from-yellow-500 to-orange-500" },
    { id := "coder", name := "AI Coder", role := "Backend Developer",
      gradient := "from-blue-500 to-cyan-500" },
    { id := "frontend", name := "UI Architect", role := "UI/UX Developer",
      gradient := "from-pink-500 to-rose-500" },
    { id := "database", name := "Database Admin", role := "Data Architect",
      gradient := "from-green-500 to-emerald-500" } ]

/-- Lookup in the agent catalog (`app.component.ts`, `getAgentById`; the
source uses a non-null assertion, modelled as an `Option`). -/
def getAgentById (id : String) : Option Agent :=
  AI_AGENTS.find? (fun a => a.id = id)

/-- Signal state of the workspace controller (`app.component.ts`, newer
revision with project history). `storage` is the parsed content of the
persistent store behind `ProjectHistoryService`; the cosmetic theme flag is
omitted. Agent log entries carry the catalog lookup result and the message. -/
structure State where
  appState : AppState
  errorMessage : String
  prompt : String
  selectedFramework : Option Framework
  selectedFeatures : List String
  storage : List GeneratedProject
  projectHistory : List GeneratedProject
  activeProject : Option GeneratedProject
  activeAgents : List String
  agentLogs : List (Option Agent × String)
  selectedFile : Option String
  activeWorkspaceTab : WorkspaceTab
  assistantPrompt : String
  chatHistory : List ChatMessage
  isModifying : Bool
  selectedPreviewFile : Option String
deriving Repr, DecidableEq

/-- Generation guard (`app.component.ts`, `isGenerationDisabled`):
`this.prompt().trim().length < 10 || !this.selectedFramework()`. -/
def isGenerationDisabled (s : State) : Bool :=
  decide ((jsTrim s.prompt).length < 10) || s.selectedFramework.isNone

/-- Computed previewable files (`app.component.ts`, `previewableFiles`):
keys of the active project filtered to markup extensions, in dictionary
(insertion) order. -/
def previewableFiles (s : State) : List String :=
  match s.activeProject with
  | none => []
  | some project =>
    (project.files.map Prod.fst).filter
      (fun path => jsEndsWith path ".html" || jsEndsWith path ".cshtml")

/-- JS `xs[0] || null` on an array of strings: the first element, with an
empty first element collapsed to `null` by truthiness. -/
def firstOrNull (xs : List String) : Option String :=
  match xs.head? with
  | some x => if x = "" then none else some x
  | none => none

/-- Name of the active project as interpolated by the loaded-project
greeting (`this.activeProject()?.name` renders as `undefined` when absent). -/
def activeProjectName (s : State) : String :=
  match s.activeProject with
  | some project => project.name
  | none => "undefined"

/-- Workspace initialisation (`app.component.ts`, `initializeWorkspace`):
reset the chat to a single greeting, select the first key of the files
dictionary (`Object.keys(...)[0] || null`), select the first previewable
file (`this.previewableFiles()[0] || null`), and reset the workspace tab. -/
def initializeWorkspace (s : State) (isNew : Bool) : State :=
  let s1 :=
    if isNew then
      { s with chatHistory :=
          [⟨.assistant, "Your project is ready! I\u0027m your code assistant. Ask me to make changes or add features."⟩] }
    else
      { s with chatHistory :=
          [⟨.assistant, "Loaded project \"" ++ activeProjectName s ++ "\". How can I help you modify it?"⟩] }
  let firstFile := firstOrNull
    (match s1.activeProject with
     | some project => project.files.map Prod.fst
     | none => [])
  let s2 := { s1 with selectedFile := firstFile }
  let firstPreview := firstOrNull (previewableFiles s2)
  { s2 with selectedPreviewFile := firstPreview, activeWorkspaceTab := .assistant }

/-- Configuration reset (`app.component.ts`, `resetConfiguration`). -/
def resetConfiguration (s : State) : State :=
  { s with prompt := ""
           selectedFramework := none
           selectedFeatures := []
           activeProject := none
           agentLogs := []
           activeAgents := []
           chatHistory := [] }

/-- State setter (`app.component.ts`, `setAppState`): switching to
`configuring` additionally resets the configuration. -/
def setAppState (s : State) (st : AppState) : State :=
  let s1 := { s with appState := st }
  if st = .configuring then resetConfiguration s1 else s1

/-- Controller-level deletion (`app.component.ts`, `deleteProject`): delete
from the store, refresh the in-memory history, and if the deleted id was the
active project clear it and return to the landing state. -/
def deleteProject (s : State) (projectId : String) : State :=
  let s1 := { s with storage := ProjectHistoryService.deleteProject s.storage projectId }
  let s2 := { s1 with projectHistory := s1.storage }
  match s2.activeProject with
  | some active =>
    if active.id = projectId then
      setAppState { s2 with activeProject := none } .landing
    else s2
  | none => s2

/-- Generation handler (`app.component.ts`, `handleGenerateProject`). The
boundary outcome of the Generation Client call and the fresh id are explicit
arguments; the returned `Bool` records whether the Generation Client was
invoked. Only the synchronous prefix of `runAgentSimulation` (its writes
before the first timed delay) is part of the model. -/
def handleGenerateProject (s : State) (resp : Except String RawResponse)
    (newId : String) : State × Bool :=
  if isGenerationDisabled s then (s, false)
  else
    let s1 := { s with appState := .generating, agentLogs := [] }
    let s1 := { s1 with
                activeAgents := ["team_leader"],
                agentLogs := s1.agentLogs ++
                  [(getAgentById "team_leader", "Analyzing project requirements...")] }
    match s.selectedFramework with
    | none =>
      ({ s1 with errorMessage := "Framework not selected",
                 appState := .error, activeAgents := [] }, false)
    | some framework =>
      match GeminiService.generateProject resp newId s.prompt framework with
      | .ok project =>
        let s2 := { s1 with
                    activeProject := some project,
                    storage := ProjectHistoryService.saveProject s1.storage project }
        let s2 := { s2 with projectHistory := s2.storage }
        let s2 := { s2 with
                    appState := .completed,
                    agentLogs := s2.agentLogs ++
                      [(getAgentById "team_leader", "Project generation complete! Review the files below.")] }
        let s3 := initializeWorkspace s2 true
        ({ s3 with activeAgents := [] }, true)
      | .error e =>
        ({ s1 with
           errorMessage := if e ≠ "" then e else "An unknown error occurred.",
           appState := .error, activeAgents := [] }, true)

/-- Modification handler (`app.component.ts`, `handleModificationRequest`).
The boundary outcome and fresh id are explicit arguments; the returned `Bool`
records whether the Generation Client was invoked. -/
def handleModificationRequest (s : State) (resp : Except String RawResponse)
    (newId : String) : State × Bool :=
  let userPrompt := jsTrim s.assistantPrompt
  if userPrompt = "" ∨ s.activeProject = none ∨ s.isModifying = true then (s, false)
  else
    let s1 := { s with isModifying := true,
                       chatHistory := s.chatHistory ++ [⟨.user, userPrompt⟩],
                       assistantPrompt := "" }
    match s.activeProject with
    | none => (s1, false)
    | some currentProject =>
      match GeminiService.modifyProject resp newId currentProject with
      | .ok updatedProject =>
        let s2 := { s1 with
                    activeProject := some updatedProject,
                    storage := ProjectHistoryService.saveProject s1.storage updatedProject }
        let s2 := { s2 with projectHistory := s2.storage }
        let assistantMessage :=
          if updatedProject.explanation ≠ "" then
            "I\u0027ve updated the project: " ++ updatedProject.explanation
          else
            "I\u0027ve updated the project based on your request. Please review the changes."
        let s3 := { s2 with chatHistory := s2.chatHistory ++ [ChatMessage.mk .assistant assistantMessage] }
        let s4 :=
          match s3.selectedPreviewFile with
          | some f =>
            if f ≠ "" ∧ ¬ (previewableFiles s3).contains f then
              { s3 with selectedPreviewFile := firstOrNull (previewableFiles s3) }
            else s3
          | none => s3
        ({ s4 with isModifying := false }, true)
      | .error e =>
        let errorMessage := if e ≠ "" then e else "An unknown error occurred."
        let s2 := { s1 with
                    errorMessage := errorMessage,
                    chatHistory := s1.chatHistory ++
                      [ChatMessage.mk .assistant ("I encountered an error: " ++ errorMessage)] }
        ({ s2 with isModifying := false }, true)

end AppComponent

/-! Concrete sample inputs, used to instantiate the theorems below. -/

/-- Sample framework catalog entry (first entry of `AVAILABLE_FRAMEWORKS`). -/
def demoFramework : Framework :=
  { value := "ASP.NET Core MVC", label := "ASP.NET Core MVC",
    description := "Traditional MVC web application" }

/-- Sample parsed AI response with two markup files, the lexicographically
larger path first. -/
def demoRawResponse : RawResponse :=
  { files := [⟨"b.html", "<p>b</p>"⟩, ⟨"a.html", "<p>a</p>"⟩],
    dependencies := ["Microsoft.EntityFrameworkCore"],
    explanation := "Two pages.",
    build_commands := ["dotnet run"] }

/-- Sample successful boundary outcome. -/
def demoResp : Except String RawResponse := .ok demoRawResponse

/-- Sample project as produced by a successful generation. -/
def demoProject : GeneratedProject :=
  { id := "2024-01-01T00:00:00.000Z0.5", name := "Build a blog with comments",
    prompt := "Build a blog with comments", framework := demoFramework,
    files := [("b.html", "<p>b</p>"), ("a.html", "<p>a</p>")],
    dependencies := ["Microsoft.EntityFrameworkCore"],
    explanation := "Two pages.",
    build_commands := ["dotnet run"] }

/-- Second sample project with a different id. -/
def demoProject2 : GeneratedProject :=
  { demoProject with id := "other-id", name := "Other" }

/-- Sample controller state in the configuring screen with a valid prompt and
framework. -/
def demoConfigState : AppComponent.State :=
  { appState := .configuring, errorMessage := "", prompt := "Build a blog with comments",
    selectedFramework := some demoFramework, selectedFeatures := [], storage := [],
    projectHistory := [], activeProject := none, activeAgents := [], agentLogs := [],
    selectedFile := none, activeWorkspaceTab := .assistant, assistantPrompt := "",
    chatHistory := [], isModifying := false, selectedPreviewFile := none }

/-- Sample workspace state on a completed project with a pending assistant
instruction. -/
def demoWorkspaceState : AppComponent.State :=
  { demoConfigState with
    appState := .completed, activeProject := some demoProject,
    storage := [demoProject], projectHistory := [demoProject],
    selectedFile := some "b.html", selectedPreviewFile := some "b.html",
    assistantPrompt := "add a contact page",
    chatHistory := [⟨.assistant, "hi"⟩] }

/-! Helper lemmas about the dictionary model and list search. -/

theorem mem_assocSet {m : List (String × String)} {k v : String} {kv : String × String}
    (h : kv ∈ assocSet m k v) : kv = (k, v) ∨ kv ∈ m := by
  induction m with
  | nil => simpa [assocSet] using h
  | cons hd tl ih =>
    obtain ⟨k', v'⟩ := hd
    simp only [assocSet] at h
    by_cases hk : k' = k
    · rw [if_pos hk] at h
      rcases List.mem_cons.mp h with h | h
      · exact Or.inl h
      · exact Or.inr (List.mem_cons_of_mem _ h)
    · rw [if_neg hk] at h
      rcases List.mem_cons.mp h with h | h
      · exact Or.inr (h ▸ List.mem_cons_self _ _)
      · rcases ih h with h' | h'
        · exact Or.inl h'
        · exact Or.inr (List.mem_cons_of_mem _ h')

theorem assocFind_assocSet (m : List (String × String)) (k v : String) :
    assocFind (assocSet m k v) k = some v := by
  induction m with
  | nil => simp [assocSet, assocFind]
  | cons hd tl ih =>
    obtain ⟨k', v'⟩ := hd
    by_cases hk : k' = k
    · simp [assocSet, hk, assocFind]
    · simpa [assocSet, hk, assocFind, List.find?] using ih

theorem filesDictionary_mem {fs : List RawFile} {kv : String × String}
    (h : kv ∈ GeminiService.filesDictionary fs) : kv.1 ≠ "" ∧ kv.2 ≠ "" := by
  suffices H : ∀ (fs : List RawFile) (acc : List (String × String)),
      (∀ kv ∈ acc, kv.1 ≠ "" ∧ kv.2 ≠ "") →
      ∀ kv ∈ fs.foldl
        (fun acc file =>
          if file.path ≠ "" ∧ file.content ≠ "" then assocSet acc file.path file.content
          else acc) acc, kv.1 ≠ "" ∧ kv.2 ≠ "" by
    exact H fs [] (by simp) kv h
  intro fs
  induction fs with
  | nil => intro acc hacc kv hkv; exact hacc kv hkv
  | cons f rest ih =>
    intro acc hacc kv hkv
    simp only [List.foldl_cons] at hkv
    by_cases hf : f.path ≠ "" ∧ f.content ≠ ""
    · rw [if_pos hf] at hkv
      refine ih (assocSet acc f.path f.content) ?_ kv hkv
      intro kv' hkv'
      rcases mem_assocSet hkv' with h' | h'
      · subst h'; exact hf
      · exact hacc kv' h'
    · rw [if_neg hf] at hkv
      exact ih acc hacc kv hkv

theorem filesDictionary_append (fs : List RawFile) (f : RawFile) :
    GeminiService.filesDictionary (fs ++ [f]) =
      (if f.path ≠ "" ∧ f.content ≠ "" then
        assocSet (GeminiService.filesDictionary fs) f.path f.content
       else GeminiService.filesDictionary fs) := by
  simp [GeminiService.filesDictionary, List.foldl_append]

/-- Characterisation of a successful `callGenerativeModel`. -/
theorem callGenerativeModel_ok {resp : Except String RawResponse} {newId originalPrompt : String}
    {framework : Framework} {project : GeneratedProject}
    (h : GeminiService.callGenerativeModel resp newId originalPrompt framework = .ok project) :
    ∃ rawResponse, resp = .ok rawResponse ∧
      GeminiService.filesDictionary rawResponse.files ≠ [] ∧
      project =
        { id := newId
          name := GeminiService.projectName originalPrompt
          prompt := originalPrompt
          framework := framework
          files := GeminiService.filesDictionary rawResponse.files
          dependencies := rawResponse.dependencies
          explanation := rawResponse.explanation
          build_commands := rawResponse.build_commands } := by
  cases resp with
  | error e => simp [GeminiService.callGenerativeModel] at h
  | ok rawResponse =>
    refine ⟨rawResponse, rfl, ?_, ?_⟩ <;>
    · simp only [GeminiService.callGenerativeModel] at h
      split at h
      · simp at h
      · simp_all [List.length_eq_zero]

/-- Expected result of `generateProject` on the sample inputs. -/
def demoGenerated : GeneratedProject :=
  { demoProject with id := "new-id" }

/-- Sample prompt longer than 50 characters (60 characters). -/
def demoLongPrompt : String :=
  "Build a very large enterprise resource planning application"

/-! Claim theorems. -/

/-- C1: for every successful `modifyProject` call on an existing project, the
returned project keeps `id`, `prompt`, `framework` and `name` byte-identical
to the existing project, and `files`, `dependencies`, `explanation`,
`build_commands` are replaced wholesale from the parsed response. -/
theorem modifyProject_frame (resp : Except String RawResponse) (newId : String)
    (existingProject updated : GeneratedProject)
    (h : GeminiService.modifyProject resp newId existingProject = .ok updated) :
    updated.id = existingProject.id ∧ updated.prompt = existingProject.prompt ∧
    updated.framework = existingProject.framework ∧ updated.name = existingProject.name ∧
    ∃ rawResponse, resp = .ok rawResponse ∧
      updated.files = GeminiService.filesDictionary rawResponse.files ∧
      updated.dependencies = rawResponse.dependencies ∧
      updated.explanation = rawResponse.explanation ∧
      updated.build_commands = rawResponse.build_commands := by
  unfold GeminiService.modifyProject at h
  cases hc : GeminiService.callGenerativeModel resp newId existingProject.prompt
      existingProject.framework with
  | error e => rw [hc] at h; simp at h
  | ok modifiedCore =>
    rw [hc] at h
    simp only [Except.ok.injEq] at h
    obtain ⟨rawResponse, hresp, _, hcore⟩ := callGenerativeModel_ok hc
    subst h
    exact ⟨rfl, rfl, rfl, rfl, rawResponse, hresp, by simp [hcore], by simp [hcore],
      by simp [hcore], by simp [hcore]⟩

/-- C1 witness: the frame property instantiated on the sample modification,
whose boundary response reproduces the sample project. -/
theorem modifyProject_frame_witness :
    GeminiService.modifyProject demoResp "new-id" demoProject = .ok demoProject ∧
    (demoProject.id = demoProject.id ∧ demoProject.prompt = demoProject.prompt ∧
     demoProject.framework = demoProject.framework ∧ demoProject.name = demoProject.name ∧
     ∃ rawResponse, demoResp = .ok rawResponse ∧
       demoProject.files = GeminiService.filesDictionary rawResponse.files ∧
       demoProject.dependencies = rawResponse.dependencies ∧
       demoProject.explanation = rawResponse.explanation ∧
       demoProject.build_commands = rawResponse.build_commands) :=
  ⟨rfl, modifyProject_frame demoResp "new-id" demoProject demoProject rfl⟩

/-- C2: every project returned by a successful `generateProject` or
`modifyProject` has a non-empty files mapping (an empty parsed file result is
turned into an error before success is reported). -/
theorem successful_files_nonempty
    (resp : Except String RawResponse) (newId prompt0 : String) (framework : Framework)
    (existingProject generated modified : GeneratedProject) :
    (GeminiService.generateProject resp newId prompt0 framework = .ok generated →
      generated.files ≠ []) ∧
    (GeminiService.modifyProject resp newId existingProject = .ok modified →
      modified.files ≠ []) := by
  constructor
  · intro h
    unfold GeminiService.generateProject at h
    cases hc : GeminiService.callGenerativeModel resp newId prompt0 framework with
    | error e => rw [hc] at h; simp at h
    | ok project =>
      rw [hc] at h
      simp only [Except.ok.injEq] at h
      obtain ⟨rawResponse, _, hne, hp⟩ := callGenerativeModel_ok hc
      subst h
      simpa [hp] using hne
  · intro h
    unfold GeminiService.modifyProject at h
    cases hc : GeminiService.callGenerativeModel resp newId existingProject.prompt
        existingProject.framework with
    | error e => rw [hc] at h; simp at h
    | ok modifiedCore =>
      rw [hc] at h
      simp only [Except.ok.injEq] at h
      obtain ⟨rawResponse, _, hne, hp⟩ := callGenerativeModel_ok hc
      subst h
      simpa [hp] using hne

/-- C2 witness: the non-emptiness property instantiated on the sample
generation and the sample modification. -/
theorem successful_files_nonempty_witness :
    demoGenerated.files ≠ [] ∧ demoProject.files ≠ [] :=
  ⟨(successful_files_nonempty demoResp "new-id" "Build a blog with comments" demoFramework
      demoProject demoGenerated demoProject).1 rfl,
   (successful_files_nonempty demoResp "new-id" "Build a blog with comments" demoFramework
      demoProject demoGenerated demoProject).2 rfl⟩

/-- C8: the name of a newly generated project is the prompt itself when it
has at most 50 characters, and the first 47 characters followed by an
ellipsis when it is longer. -/
theorem generated_project_name (resp : Except String RawResponse) (newId prompt0 : String)
    (framework : Framework) (generated : GeneratedProject) :
    (prompt0.length ≤ 50 → GeminiService.projectName prompt0 = prompt0) ∧
    (prompt0.length > 50 →
      GeminiService.projectName prompt0 = (prompt0.take 47) ++ "...") ∧
    (GeminiService.generateProject resp newId prompt0 framework = .ok generated →
      generated.name = GeminiService.projectName prompt0) := by
  refine ⟨fun h => ?_, fun h => ?_, fun h => ?_⟩
  · simp [GeminiService.projectName, Nat.not_lt.mpr h]
  · simp [GeminiService.projectName, h]
  · unfold GeminiService.generateProject at h
    cases hc : GeminiService.callGenerativeModel resp newId prompt0 framework with
    | error e => rw [hc] at h; simp at h
    | ok project =>
      rw [hc] at h
      simp only [Except.ok.injEq] at h
      obtain ⟨rawResponse, _, _, hp⟩ := callGenerativeModel_ok hc
      subst h
      simp [hp]

/-- C8 witness: the truncation rule instantiated on a 26-character prompt
(kept verbatim, also as the name of the generated sample project) and on a
59-character prompt (truncated with an ellipsis). -/
theorem generated_project_name_witness :
    GeminiService.projectName "Build a blog with comments" = "Build a blog with comments" ∧
    GeminiService.projectName demoLongPrompt = (demoLongPrompt.take 47) ++ "..." ∧
    demoGenerated.name = GeminiService.projectName "Build a blog with comments" :=
  ⟨(generated_project_name demoResp "new-id" "Build a blog with comments" demoFramework
      demoGenerated).1 (by decide),
   (generated_project_name demoResp "new-id" demoLongPrompt demoFramework demoGenerated).2.1
     (by decide),
   (generated_project_name demoResp "new-id" "Build a blog with comments" demoFramework
      demoGenerated).2.2 rfl⟩

/-- C10: the files mapping built from an AI response file array contains only
entries with non-empty path and non-empty content (empty strings are dropped
by the truthiness test), a later entry with the same path overrides the
earlier content, and consequently every key and value of the files mapping of
a project returned by a successful generate or modify is non-empty. -/
theorem filesDictionary_valid (fs : List RawFile) (f : RawFile)
    (resp : Except String RawResponse) (newId prompt0 : String) (framework : Framework)
    (existingProject generated modified : GeneratedProject) :
    (∀ kv ∈ GeminiService.filesDictionary fs, kv.1 ≠ "" ∧ kv.2 ≠ "") ∧
    (f.path ≠ "" → f.content ≠ "" →
      assocFind (GeminiService.filesDictionary (fs ++ [f])) f.path = some f.content) ∧
    (GeminiService.generateProject resp newId prompt0 framework = .ok generated →
      ∀ kv ∈ generated.files, kv.1 ≠ "" ∧ kv.2 ≠ "") ∧
    (GeminiService.modifyProject resp newId existingProject = .ok modified →
      ∀ kv ∈ modified.files, kv.1 ≠ "" ∧ kv.2 ≠ "") := by
  refine ⟨fun kv hkv => filesDictionary_mem hkv, fun hp hc => ?_, fun h => ?_, fun h => ?_⟩
  · rw [filesDictionary_append, if_pos ⟨hp, hc⟩]
    exact assocFind_assocSet _ _ _
  · unfold GeminiService.generateProject at h
    cases hcall : GeminiService.callGenerativeModel resp newId prompt0 framework with
    | error e => rw [hcall] at h; simp at h
    | ok project =>
      rw [hcall] at h
      simp only [Except.ok.injEq] at h
      obtain ⟨rawResponse, _, _, hpr⟩ := callGenerativeModel_ok hcall
      subst h
      intro kv hkv
      rw [hpr] at hkv
      exact filesDictionary_mem hkv
  · unfold GeminiService.modifyProject at h
    cases hcall : GeminiService.callGenerativeModel resp newId existingProject.prompt
        existingProject.framework with
    | error e => rw [hcall] at h; simp at h
    | ok modifiedCore =>
      rw [hcall] at h
      simp only [Except.ok.injEq] at h
      obtain ⟨rawResponse, _, _, hpr⟩ := callGenerativeModel_ok hcall
      subst h
      intro kv hkv
      simp only at hkv
      rw [hpr] at hkv
      exact filesDictionary_mem hkv

/-- C10 witness: the entry-validity property instantiated on the sample
response extended with an overriding entry for an existing path, plus the two
successful sample operations. -/
theorem filesDictionary_valid_witness :
    assocFind
      (GeminiService.filesDictionary (demoRawResponse.files ++ [⟨"a.html", "<p>new</p>"⟩]))
      "a.html" = some "<p>new</p>" ∧
    (∀ kv ∈ demoGenerated.files, kv.1 ≠ "" ∧ kv.2 ≠ "") ∧
    (∀ kv ∈ demoProject.files, kv.1 ≠ "" ∧ kv.2 ≠ "") :=
  ⟨(filesDictionary_valid demoRawResponse.files ⟨"a.html", "<p>new</p>"⟩ demoResp "new-id"
      "Build a blog with comments" demoFramework demoProject demoGenerated demoProject).2.1
      (by decide) (by decide),
   (filesDictionary_valid demoRawResponse.files ⟨"a.html", "<p>new</p>"⟩ demoResp "new-id"
      "Build a blog with comments" demoFramework demoProject demoGenerated demoProject).2.2.1
      rfl,
   (filesDictionary_valid demoRawResponse.files ⟨"a.html", "<p>new</p>"⟩ demoResp "new-id"
      "Build a blog with comments" demoFramework demoProject demoGenerated demoProject).2.2.2
      rfl⟩

/-- A successful `findIdx?` points at an element satisfying the predicate. -/
theorem findIdx?_get {α : Type _} {pred : α → Bool} :
    ∀ {l : List α} {i : Nat}, l.findIdx? pred = some i →
      ∃ a, l[i]? = some a ∧ pred a = true := by
  intro l
  induction l with
  | nil => intro i h; simp [List.findIdx?_nil] at h
  | cons x xs ih =>
    intro i h
    rw [List.findIdx?_cons] at h
    by_cases hx : pred x
    · rw [if_pos hx] at h
      cases h
      exact ⟨x, by simp, hx⟩
    · rw [if_neg hx, List.findIdx?_succ] at h
      obtain ⟨j, hj, rfl⟩ := Option.map_eq_some'.mp h
      obtain ⟨a, ha, hpa⟩ := ih hj
      exact ⟨a, by simpa using ha, hpa⟩

/-- Overwriting the found position with another element satisfying the
predicate leaves the first found index unchanged. -/
theorem findIdx?_set_self {α : Type _} {pred : α → Bool} {a : α} (ha : pred a = true) :
    ∀ {l : List α} {i : Nat}, l.findIdx? pred = some i →
      (l.set i a).findIdx? pred = some i := by
  intro l
  induction l with
  | nil => intro i h; simp [List.findIdx?_nil] at h
  | cons x xs ih =>
    intro i h
    rw [List.findIdx?_cons] at h
    by_cases hx : pred x
    · rw [if_pos hx] at h
      cases h
      simp [List.set, List.findIdx?_cons, ha]
    · rw [if_neg hx, List.findIdx?_succ] at h
      obtain ⟨j, hj, rfl⟩ := Option.map_eq_some'.mp h
      have hrec := ih hj
      show ((x :: xs).set (j + 1) a).findIdx? pred = some (j + 1)
      rw [show (x :: xs).set (j + 1) a = x :: xs.set j a from rfl,
        List.findIdx?_cons, if_neg hx, List.findIdx?_succ, hrec]
      rfl

/-- C3: history `save` is an upsert by id. When no stored entry has the id of
the saved project, the project is prepended; when one has, the first such
entry is replaced in place, every other position is untouched and the length
is unchanged; saving the same project twice equals saving it once. -/
theorem saveProject_upsert (l : List GeneratedProject) (p : GeneratedProject) :
    ((∀ q ∈ l, q.id ≠ p.id) → ProjectHistoryService.saveProject l p = p :: l) ∧
    ((∃ q ∈ l, q.id = p.id) →
      (ProjectHistoryService.saveProject l p).length = l.length ∧
      ∃ (i : Nat) (q : GeneratedProject), l[i]? = some q ∧ q.id = p.id ∧
        (ProjectHistoryService.saveProject l p)[i]? = some p ∧
        ∀ j, j ≠ i → (ProjectHistoryService.saveProject l p)[j]? = l[j]?) ∧
    ProjectHistoryService.saveProject (ProjectHistoryService.saveProject l p) p =
      ProjectHistoryService.saveProject l p := by
  refine ⟨?_, ?_, ?_⟩
  · intro hall
    have hnone : l.findIdx? (fun q : GeneratedProject => q.id = p.id) = none :=
      List.findIdx?_eq_none_iff.mpr (fun x hx => by simpa using hall x hx)
    simp [ProjectHistoryService.saveProject, hnone]
  · rintro ⟨q, hq, hid⟩
    cases hc : l.findIdx? (fun q : GeneratedProject => q.id = p.id) with
    | none =>
      exact absurd (List.findIdx?_eq_none_iff.mp hc q hq) (by simpa using hid)
    | some i =>
      have hsave : ProjectHistoryService.saveProject l p = l.set i p := by
        simp [ProjectHistoryService.saveProject, hc]
      obtain ⟨q', hq', hpq'⟩ := findIdx?_get hc
      refine ⟨by simp [hsave], i, q', hq', by simpa using hpq', ?_, ?_⟩
      · rw [hsave]
        have hi : i < l.length := (List.getElem?_eq_some.mp hq').1
        simp [List.getElem?_set_self', hq']
      · intro j hj
        rw [hsave, List.getElem?_set_ne (Ne.symm hj)]
  · cases hc : l.findIdx? (fun q : GeneratedProject => q.id = p.id) with
    | none =>
      simp [ProjectHistoryService.saveProject, hc, List.findIdx?_cons]
    | some i =>
      have hfound : ((l.set i p).findIdx? (fun q : GeneratedProject => q.id = p.id)) = some i :=
        findIdx?_set_self (by simp) hc
      simp [ProjectHistoryService.saveProject, hc, hfound, List.set_set]

/-- C3 witness: the upsert property instantiated on a two-element history:
re-saving an existing id replaces in place and is idempotent, saving a fresh
id prepends. -/
theorem saveProject_upsert_witness :
    ProjectHistoryService.saveProject [demoProject2] demoProject =
      demoProject :: [demoProject2] ∧
    (ProjectHistoryService.saveProject [demoProject2, demoProject] demoProject).length =
      [demoProject2, demoProject].length ∧
    ProjectHistoryService.saveProject
        (ProjectHistoryService.saveProject [demoProject2, demoProject] demoProject)
        demoProject =
      ProjectHistoryService.saveProject [demoProject2, demoProject] demoProject :=
  ⟨(saveProject_upsert [demoProject2] demoProject).1 (by decide),
   ((saveProject_upsert [demoProject2, demoProject] demoProject).2.1
      ⟨demoProject, by decide, rfl⟩).1,
   (saveProject_upsert [demoProject2, demoProject] demoProject).2.2⟩

/-- Sample configuring state whose trimmed prompt is shorter than 10
characters. -/
def demoShortPromptState : AppComponent.State :=
  { demoConfigState with prompt := "  short  " }

/-- C4: when the trimmed prompt is shorter than 10 characters or no framework
is selected, the generate action is a no-op: the state is returned unchanged
(in particular it does not leave `configuring` and no error is surfaced) and
the Generation Client is not called. -/
theorem handleGenerateProject_noop (s : AppComponent.State)
    (resp : Except String RawResponse) (newId : String)
    (h : AppComponent.isGenerationDisabled s = true) :
    AppComponent.handleGenerateProject s resp newId = (s, false) := by
  simp [AppComponent.handleGenerateProject, h]

/-- C4 witness: the no-op property instantiated on a state with a 5-character
trimmed prompt. -/
theorem handleGenerateProject_noop_witness :
    AppComponent.isGenerationDisabled demoShortPromptState = true ∧
    AppComponent.handleGenerateProject demoShortPromptState demoResp "new-id" =
      (demoShortPromptState, false) :=
  ⟨rfl, handleGenerateProject_noop demoShortPromptState demoResp "new-id" rfl⟩

/-- C6: when the trimmed modification instruction is empty, or no project is
active, or a modification is already in flight, the modification request is a
no-op: the state is returned unchanged (so no chat message is appended) and
the Generation Client is not called. -/
theorem handleModificationRequest_noop (s : AppComponent.State)
    (resp : Except String RawResponse) (newId : String)
    (h : jsTrim s.assistantPrompt = "" ∨ s.activeProject = none ∨ s.isModifying = true) :
    AppComponent.handleModificationRequest s resp newId = (s, false) := by
  simp only [AppComponent.handleModificationRequest]
  rw [if_pos h]

/-- C6 witness: the no-op property instantiated on a whitespace-only
instruction with an active project, and on an in-flight modification. -/
theorem handleModificationRequest_noop_witness :
    AppComponent.handleModificationRequest
        { demoWorkspaceState with assistantPrompt := "   " } demoResp "new-id" =
      ({ demoWorkspaceState with assistantPrompt := "   " }, false) ∧
    AppComponent.handleModificationRequest
        { demoWorkspaceState with isModifying := true } demoResp "new-id" =
      ({ demoWorkspaceState with isModifying := true }, false) :=
  ⟨handleModificationRequest_noop { demoWorkspaceState with assistantPrompt := "   " }
      demoResp "new-id" (Or.inl rfl),
   handleModificationRequest_noop { demoWorkspaceState with isModifying := true }
      demoResp "new-id" (Or.inr (Or.inr rfl))⟩

/-- Failure messages of `modifyProject` are always the fixed normalised
modification error text. -/
theorem modifyProject_error_message {resp : Except String RawResponse} {newId : String}
    {existingProject : GeneratedProject} {e : String}
    (h : GeminiService.modifyProject resp newId existingProject = .error e) :
    e = "Failed to modify project. The AI model may be overloaded or the request was invalid." := by
  unfold GeminiService.modifyProject at h
  cases hc : GeminiService.callGenerativeModel resp newId existingProject.prompt
      existingProject.framework with
  | ok modifiedCore => rw [hc] at h; simp at h
  | error e' =>
    rw [hc] at h
    simp only [Except.error.injEq] at h
    exact h.symm

/-- C7: when a modification request fails, the error message is stored as the
global error value and appended as an assistant chat message after the user
message, while the active project, the app state and the in-flight flag are
left as before the call. -/
theorem handleModificationRequest_failure (s : AppComponent.State)
    (resp : Except String RawResponse) (newId : String)
    (currentProject : GeneratedProject) (e : String)
    (hp : jsTrim s.assistantPrompt ≠ "") (ha : s.activeProject = some currentProject)
    (hm : s.isModifying = false)
    (herr : GeminiService.modifyProject resp newId currentProject = .error e) :
    (AppComponent.handleModificationRequest s resp newId).1.activeProject =
      s.activeProject ∧
    (AppComponent.handleModificationRequest s resp newId).1.errorMessage = e ∧
    (AppComponent.handleModificationRequest s resp newId).1.chatHistory =
      s.chatHistory ++ [⟨.user, jsTrim s.assistantPrompt⟩,
        ⟨.assistant, "I encountered an error: " ++ e⟩] ∧
    (AppComponent.handleModificationRequest s resp newId).1.appState = s.appState ∧
    (AppComponent.handleModificationRequest s resp newId).1.isModifying = false := by
  have hne : e ≠ "" := by
    rw [modifyProject_error_message herr]
    decide
  have hguard : ¬(jsTrim s.assistantPrompt = "" ∨ s.activeProject = none ∨
      s.isModifying = true) := by
    simp [hp, ha, hm]
  simp only [AppComponent.handleModificationRequest]
  rw [if_neg hguard, ha]
  simp only [herr]
  simp [if_pos hne]

/-- C7 witness: the failure property instantiated on the sample workspace
with a failing boundary call. -/
theorem handleModificationRequest_failure_witness :
    (AppComponent.handleModificationRequest demoWorkspaceState (.error "boom")
        "new-id").1.activeProject = demoWorkspaceState.activeProject ∧
    (AppComponent.handleModificationRequest demoWorkspaceState (.error "boom")
        "new-id").1.errorMessage =
      "Failed to modify project. The AI model may be overloaded or the request was invalid." ∧
    (AppComponent.handleModificationRequest demoWorkspaceState (.error "boom")
        "new-id").1.chatHistory =
      demoWorkspaceState.chatHistory ++
        [⟨.user, jsTrim demoWorkspaceState.assistantPrompt⟩,
         ⟨.assistant, "I encountered an error: " ++
           "Failed to modify project. The AI model may be overloaded or the request was invalid."⟩] ∧
    (AppComponent.handleModificationRequest demoWorkspaceState (.error "boom")
        "new-id").1.appState = demoWorkspaceState.appState ∧
    (AppComponent.handleModificationRequest demoWorkspaceState (.error "boom")
        "new-id").1.isModifying = false :=
  handleModificationRequest_failure demoWorkspaceState (.error "boom") "new-id"
    demoProject
    "Failed to modify project. The AI model may be overloaded or the request was invalid."
    (by decide) rfl rfl rfl

/-- C9: deleting a project id removes every matching entry from the store
(all other entries are kept in their order, as expressed by the filter), the
in-memory history is refreshed to the stored list, and if the deleted id was
the active project the active project is cleared and the app returns to the
landing state. -/
theorem deleteProject_spec (s : AppComponent.State) (projectId : String) :
    (AppComponent.deleteProject s projectId).storage =
      s.storage.filter (fun q => q.id ≠ projectId) ∧
    (∀ q ∈ (AppComponent.deleteProject s projectId).storage, q.id ≠ projectId) ∧
    (AppComponent.deleteProject s projectId).projectHistory =
      (AppComponent.deleteProject s projectId).storage ∧
    (∀ active, s.activeProject = some active → active.id = projectId →
      (AppComponent.deleteProject s projectId).activeProject = none ∧
      (AppComponent.deleteProject s projectId).appState = .landing) := by
  cases ha : s.activeProject with
  | none =>
    refine ⟨?_, ?_, ?_, ?_⟩ <;>
      simp_all [AppComponent.deleteProject, AppComponent.setAppState,
        ProjectHistoryService.deleteProject, List.mem_filter]
  | some active0 =>
    by_cases hid : active0.id = projectId
    · refine ⟨?_, ?_, ?_, ?_⟩ <;>
        simp_all [AppComponent.deleteProject, AppComponent.setAppState,
          AppComponent.resetConfiguration, ProjectHistoryService.deleteProject,
          List.mem_filter]
    · refine ⟨?_, ?_, ?_, ?_⟩ <;>
        simp_all [AppComponent.deleteProject, AppComponent.setAppState,
          ProjectHistoryService.deleteProject, List.mem_filter]

/-- C9 witness: deleting the active sample project empties the single-entry
store, clears the active project and lands back on the landing screen. -/
theorem deleteProject_spec_witness :
    (AppComponent.deleteProject demoWorkspaceState demoProject.id).storage =
      demoWorkspaceState.storage.filter (fun q => q.id ≠ demoProject.id) ∧
    (AppComponent.deleteProject demoWorkspaceState demoProject.id).activeProject = none ∧
    (AppComponent.deleteProject demoWorkspaceState demoProject.id).appState = .landing :=
  ⟨(deleteProject_spec demoWorkspaceState demoProject.id).1,
   ((deleteProject_spec demoWorkspaceState demoProject.id).2.2.2 demoProject rfl rfl).1,
   ((deleteProject_spec demoWorkspaceState demoProject.id).2.2.2 demoProject rfl rfl).2⟩

/-- Heads of lists of non-empty strings survive the JS truthiness collapse. -/
theorem firstOrNull_eq_head {xs : List String} (h : ∀ x ∈ xs, x ≠ "") :
    AppComponent.firstOrNull xs = xs.head? := by
  cases xs with
  | nil => rfl
  | cons x rest => simp [AppComponent.firstOrNull, h x (List.mem_cons_self x rest)]

/-- C5 counterexample: after a successful generation whose response lists
`b.html` before `a.html`, the code view selects `b.html` (the first key in
the stored dictionary order) even though `a.html` is also a file path of the
active project and is lexicographically strictly smaller, indeed the unique
lexicographic minimum; the selected file is therefore not the first path in
lexicographically sorted order. -/
theorem initializeWorkspace_not_lexicographic :
    (AppComponent.handleGenerateProject demoConfigState demoResp
        "new-id").1.selectedFile = some "b.html" ∧
    (AppComponent.handleGenerateProject demoConfigState demoResp
        "new-id").1.activeProject = some demoGenerated ∧
    "a.html" ∈ demoGenerated.files.map Prod.fst ∧
    "a.html".data < "b.html".data ∧
    (∀ path ∈ demoGenerated.files.map Prod.fst,
      path = "a.html" ∨ "a.html".data < path.data) := by
  refine ⟨rfl, rfl, by decide, by decide, by decide⟩

/-- C5 amended: for every active project whose file paths are non-empty
strings (as holds for every generated project), initializing the workspace
selects for the code view the first file in the files mapping's stored
(insertion) order — not in lexicographically sorted order — and selects for
live preview the first file in that same order whose path ends in `.html` or
`.cshtml`, or none when no such file exists. -/
theorem initializeWorkspace_first_in_order (s : AppComponent.State) (isNew : Bool)
    (project : GeneratedProject) (ha : s.activeProject = some project)
    (hkeys : ∀ path ∈ project.files.map Prod.fst, path ≠ "") :
    (AppComponent.initializeWorkspace s isNew).selectedFile =
      (project.files.map Prod.fst).head? ∧
    (AppComponent.initializeWorkspace s isNew).selectedPreviewFile =
      ((project.files.map Prod.fst).filter
        (fun path => jsEndsWith path ".html" || jsEndsWith path ".cshtml")).head? := by
  have h1 : AppComponent.firstOrNull (project.files.map Prod.fst) =
      (project.files.map Prod.fst).head? := firstOrNull_eq_head hkeys
  have h2 : AppComponent.firstOrNull ((project.files.map Prod.fst).filter
        (fun path => jsEndsWith path ".html" || jsEndsWith path ".cshtml")) =
      ((project.files.map Prod.fst).filter
        (fun path => jsEndsWith path ".html" || jsEndsWith path ".cshtml")).head? :=
    firstOrNull_eq_head (fun x hx => hkeys x (List.mem_of_mem_filter hx))
  cases isNew <;>
    simp [AppComponent.initializeWorkspace, AppComponent.previewableFiles, ha, h1, h2]

/-- C5 amended witness: the insertion-order selection instantiated on the
sample workspace whose active project stores `b.html` before `a.html`. -/
theorem initializeWorkspace_first_in_order_witness :
    (∀ path ∈ demoProject.files.map Prod.fst, path ≠ "") ∧
    (AppComponent.initializeWorkspace demoWorkspaceState true).selectedFile =
      (demoProject.files.map Prod.fst).head? ∧
    (AppComponent.initializeWorkspace demoWorkspaceState true).selectedPreviewFile =
      ((demoProject.files.map Prod.fst).filter
        (fun path => jsEndsWith path ".html" || jsEndsWith path ".cshtml")).head? :=
  ⟨by decide,
   (initializeWorkspace_first_in_order demoWorkspaceState true demoProject rfl (by decide)).1,
   (initializeWorkspace_first_in_order demoWorkspaceState true demoProject rfl (by decide)).2⟩

end DotNetGen
